import Mathlib

/-!
Verification of the analytics core of the game-record tracker
(`card_tracker.py`).  Rows of the backing table are shallowly embedded as
a Lean structure; the aggregation functions of
`display_general_deck_performance` and `show_analysis_section` are
translated into pure Lean functions over `List Row`, with Python floats
modelled as rationals (`ℚ`) and missing values as `Option`.
-/

namespace WarRecord

/-! ### Constants (from the top of `card_tracker.py`) -/

def WIN : String := "勝ち"

def LOSS : String := "負け"

def FIRST : String := "先攻"

def SECOND : String := "後攻"

def ALL_TYPES_PLACEHOLDER : String := "全タイプ"

def SELECT_PLACEHOLDER : String := "--- 選択してください ---"

/-! ### Models of the Python string operations used by the analysis code.
`String.toLower`, `String.trim` and `String.toNat?` from core Lean do not
reduce well in the kernel, so we model `str.lower`, `str.strip`,
integer parsing and lexicographic comparison by structural recursion on
the character list. -/

/-- Model of `str.lower` restricted to ASCII letters (the analysis code only
uses it to compare against the literal `'nan'`). -/
def lowerChar (c : Char) : Char :=
  if 65 ≤ c.toNat ∧ c.toNat ≤ 90 then Char.ofNat (c.toNat + 32) else c

def lowerStr (s : String) : String := ⟨s.data.map lowerChar⟩

/-- Whitespace characters stripped by `str.strip`. -/
def isPyWS (c : Char) : Bool := c == ' ' || c == '\t' || c == '\n' || c == '\r'

/-- Model of `str.strip`. -/
def stripStr (s : String) : String :=
  ⟨((s.data.dropWhile isPyWS).reverse.dropWhile isPyWS).reverse⟩

/-- Value of an all-digit character list. -/
def digitsToNat (l : List Char) : Nat := l.foldl (fun n c => n * 10 + (c.toNat - 48)) 0

/-- Split a leading `+`/`-` sign off a character list, returning whether the
value is negated together with the remaining characters. -/
def splitSign (l : List Char) : Bool × List Char :=
  match l with
  | c :: rest => if c == '-' then (true, rest) else if c == '+' then (false, rest) else (false, l)
  | [] => (false, [])

/-- Model of `pd.to_numeric(df['finish_turn'], errors='coerce').astype('Int64')`
(`load_data` line 117) on one raw cell, over the literal grammar: optional
surrounding whitespace, an optional single `+` or `-` sign, integer digits
and an optional fraction after a decimal point.  `to_numeric` keeps every
such numeric value — signed and whitespace-padded ones included — and
coerces anything unparseable to `NaN`, hence the absent value; the `Int64`
cast then raises on a non-integral value, modelled as `Except.error`, while
integral values (fraction absent or all zeros) become that integer.
Exponent notation and the textual `inf`/`nan` spellings accepted by pandas
lie outside the modelled grammar. -/
def normalizeFinishTurn (s : String) : Except Unit (Option Int) :=
  let t := (stripStr s).data
  let sgn := splitSign t
  let intPart := sgn.2.takeWhile Char.isDigit
  let rest := sgn.2.dropWhile Char.isDigit
  if intPart = [] then Except.ok none
  else
    let v : Int := if sgn.1 then -(digitsToNat intPart : Int) else (digitsToNat intPart : Int)
    if rest = [] then Except.ok (some v)
    else if rest.head? = some '.' ∧ (rest.drop 1).all Char.isDigit then
      (if (rest.drop 1).all (fun c => c == '0') then Except.ok (some v) else Except.error ())
    else Except.ok none

/-- Tells whether normalizing one cell raises (the `astype('Int64')` failure
on a non-integral numeric value). -/
def finishTurnRaises (s : String) : Bool :=
  match normalizeFinishTurn s with
  | Except.error _ => true
  | Except.ok _ => false

/-- The `finish_turn` stage of `load_data` at table level: the column-wise
cast of line 117 runs under the blanket `except` of line 135, so when the
cast raises on any cell the whole table is replaced by an empty one;
otherwise each cell yields its parsed value or the absent value. -/
def normalizeTableFinishTurn (raw : List String) : List (Option Int) :=
  if raw.any finishTurnRaises then []
  else raw.map fun s =>
    match normalizeFinishTurn s with
    | Except.ok v => v
    | Except.error _ => none

/-- Code-point lexicographic comparison of character lists, modelling how
Python compares the strings used as pandas sort keys. -/
def charListLe : List Char → List Char → Bool
  | [], _ => true
  | _ :: _, [] => false
  | c :: cs, d :: ds =>
    if c.toNat < d.toNat then true
    else if d.toNat < c.toNat then false
    else charListLe cs ds

def strLe (s t : String) : Bool := charListLe s.data t.data

/-! ### The data model: one appended row of the backing sheet
(columns `COLUMNS` of `card_tracker.py`). -/

structure Row where
  season : String
  date : Option Int
  environment : String
  my_deck : String
  my_deck_type : String
  opponent_deck : String
  opponent_deck_type : String
  first_second : String
  result : String
  finish_turn : Option Int
  memo : String
deriving DecidableEq

/-! ### Selection / filtering (`show_analysis_section`, lines 362-366) -/

def filterBySeason (df : List Row) (season : String) : List Row :=
  if season != "" && season != SELECT_PLACEHOLDER then
    df.filter fun r => r.season == season
  else df

def filterByEnvironments (df : List Row) (envs : List String) : List Row :=
  if envs.isEmpty then df else df.filter fun r => envs.contains r.environment

def filterForAnalysis (df : List Row) (season : String) (envs : List String) : List Row :=
  filterByEnvironments (filterBySeason df season) envs

/-! ### Overall archetype performance
(`show_analysis_section` lines 393-423 with an optional focus type,
`display_general_deck_performance` lines 276-297 with no type). -/

/-- The optional type narrowing: `none` models the `全タイプ` selection. -/
def matchesType (dtype : Option String) (t : String) : Bool :=
  match dtype with
  | none => true
  | some ty => t == ty

def asMineGames (df : List Row) (deck : String) (dtype : Option String) : List Row :=
  df.filter fun r => r.my_deck == deck && matchesType dtype r.my_deck_type

def asOpponentGames (df : List Row) (deck : String) (dtype : Option String) : List Row :=
  df.filter fun r => r.opponent_deck == deck && matchesType dtype r.opponent_deck_type

def totalWins (df : List Row) (deck : String) (dtype : Option String) : Nat :=
  ((asMineGames df deck dtype).filter fun r => r.result == WIN).length +
  ((asOpponentGames df deck dtype).filter fun r => r.result == LOSS).length

def totalAppearances (df : List Row) (deck : String) (dtype : Option String) : Nat :=
  (asMineGames df deck dtype).length + (asOpponentGames df deck dtype).length

def totalLosses (df : List Row) (deck : String) (dtype : Option String) : Nat :=
  totalAppearances df deck dtype - totalWins df deck dtype

def overallWinRate (df : List Row) (deck : String) (dtype : Option String) : ℚ :=
  if 0 < totalAppearances df deck dtype then
    (totalWins df deck dtype : ℚ) / (totalAppearances df deck dtype : ℚ) * 100
  else 0

def winRateFirst (df : List Row) (deck : String) (dtype : Option String) : Option ℚ :=
  let fMy := (asMineGames df deck dtype).filter fun r => r.first_second == FIRST
  let fOpp := (asOpponentGames df deck dtype).filter fun r => r.first_second == SECOND
  let total := fMy.length + fOpp.length
  let wins := (fMy.filter fun r => r.result == WIN).length +
    (fOpp.filter fun r => r.result == LOSS).length
  if 0 < total then some ((wins : ℚ) / (total : ℚ) * 100) else none

def winRateSecond (df : List Row) (deck : String) (dtype : Option String) : Option ℚ :=
  let sMy := (asMineGames df deck dtype).filter fun r => r.first_second == SECOND
  let sOpp := (asOpponentGames df deck dtype).filter fun r => r.first_second == FIRST
  let total := sMy.length + sOpp.length
  let wins := (sMy.filter fun r => r.result == WIN).length +
    (sOpp.filter fun r => r.result == LOSS).length
  if 0 < total then some ((wins : ℚ) / (total : ℚ) * 100) else none

/-! ### The row transformation of the symmetry property (claim C2). -/

def flipResult (s : String) : String :=
  if s == WIN then LOSS else if s == LOSS then WIN else s

def flipFirstSecond (s : String) : String :=
  if s == FIRST then SECOND else if s == SECOND then FIRST else s

def swapRow (r : Row) : Row :=
  { r with
    my_deck := r.opponent_deck
    my_deck_type := r.opponent_deck_type
    opponent_deck := r.my_deck
    opponent_deck_type := r.my_deck_type
    result := flipResult r.result
    first_second := flipFirstSecond r.first_second }

/-! ### Helper lemmas about counting. -/

theorem countP_or_disjoint (p q : Row → Bool) (l : List Row)
    (h : ∀ r ∈ l, ¬(p r = true ∧ q r = true)) :
    l.countP (fun r => p r || q r) = l.countP p + l.countP q := by
  induction l with
  | nil => simp
  | cons a l ih =>
    have ha := h a (List.mem_cons_self a l)
    have ih' := ih fun r hr => h r (List.mem_cons_of_mem a hr)
    by_cases hp : p a = true
    · have hq : q a = false := by
        cases hqv : q a with
        | false => rfl
        | true => exact absurd ⟨hp, hqv⟩ ha
      simp [List.countP_cons, hp, hq, ih']
      omega
    · have hp' : p a = false := by simpa using hp
      by_cases hq : q a = true
      · simp [List.countP_cons, hp', hq, ih']
        omega
      · have hq' : q a = false := by simpa using hq
        simp [List.countP_cons, hp', hq', ih']

theorem length_filter_eq_countP (p : Row → Bool) (l : List Row) :
    (l.filter p).length = l.countP p :=
  (List.countP_eq_length_filter p l).symm

/-- C1 helper: the win count as a single pass over the table. -/
theorem totalWins_eq_countP (df : List Row) (deck : String) (dtype : Option String) :
    totalWins df deck dtype =
      df.countP (fun r => r.my_deck == deck && matchesType dtype r.my_deck_type
        && r.result == WIN) +
      df.countP (fun r => r.opponent_deck == deck && matchesType dtype r.opponent_deck_type
        && r.result == LOSS) := by
  unfold totalWins asMineGames asOpponentGames
  rw [length_filter_eq_countP, length_filter_eq_countP, List.countP_filter, List.countP_filter]
  congr 1 <;> exact List.countP_congr (fun r _ => by rw [Bool.and_comm])

/-- C1 helper: the appearance count as a single pass over the table. -/
theorem totalAppearances_eq_countP (df : List Row) (deck : String) (dtype : Option String) :
    totalAppearances df deck dtype =
      df.countP (fun r => r.my_deck == deck && matchesType dtype r.my_deck_type) +
      df.countP (fun r => r.opponent_deck == deck && matchesType dtype r.opponent_deck_type) := by
  unfold totalAppearances asMineGames asOpponentGames
  rw [length_filter_eq_countP, length_filter_eq_countP]

/-- C1: for every table and archetype (optionally narrowed to one type), the
overall win rate equals wins/appearances × 100, where wins counts the
`AsMine` rows with result `WIN` plus the `AsOpponent` rows with result
`LOSS` and appearances is `|AsMine| + |AsOpponent|`; when there are no
appearances the result is the total value `0`, not an error. -/
theorem overall_win_rate_formula (df : List Row) (deck : String) (dtype : Option String) :
    overallWinRate df deck dtype =
      if df.countP (fun r => r.my_deck == deck && matchesType dtype r.my_deck_type) +
          df.countP (fun r => r.opponent_deck == deck && matchesType dtype r.opponent_deck_type)
          = 0 then 0
      else
        ((df.countP (fun r => r.my_deck == deck && matchesType dtype r.my_deck_type
            && r.result == WIN) +
          df.countP (fun r => r.opponent_deck == deck && matchesType dtype r.opponent_deck_type
            && r.result == LOSS) : ℕ) : ℚ) /
        ((df.countP (fun r => r.my_deck == deck && matchesType dtype r.my_deck_type) +
          df.countP (fun r => r.opponent_deck == deck && matchesType dtype r.opponent_deck_type)
          : ℕ) : ℚ) * 100 := by
  rw [overallWinRate, totalWins_eq_countP, totalAppearances_eq_countP]
  rcases Nat.eq_zero_or_pos
      (df.countP (fun r => r.my_deck == deck && matchesType dtype r.my_deck_type) +
        df.countP (fun r => r.opponent_deck == deck && matchesType dtype r.opponent_deck_type))
    with h | h
  · simp [h]
  · rw [if_pos h, if_neg (Nat.pos_iff_ne_zero.mp h)]

/-! ### Idempotence of the analysis filter (claim C9). -/

theorem filter_self_idem (p : Row → Bool) (l : List Row) :
    List.filter p (List.filter p l) = List.filter p l := by
  rw [List.filter_filter]
  exact List.filter_congr fun x _ => by cases hp : p x <;> simp [hp]

theorem filter_comp_idem (p q : Row → Bool) (l : List Row) :
    List.filter p (List.filter q (List.filter p (List.filter q l))) =
      List.filter p (List.filter q l) := by
  simp only [List.filter_filter]
  exact List.filter_congr fun x _ => by cases hp : p x <;> cases hq : q x <;> simp [hp, hq]

/-- C9: applying the analysis filter (season plus environment set) twice with
the same criteria yields the same table as applying it once. -/
theorem filter_for_analysis_idempotent (df : List Row) (season : String) (envs : List String) :
    filterForAnalysis (filterForAnalysis df season envs) season envs =
      filterForAnalysis df season envs := by
  unfold filterForAnalysis filterBySeason filterByEnvironments
  by_cases hs : (season != "" && season != SELECT_PLACEHOLDER) = true
  · by_cases he : envs.isEmpty = true
    · simp only [hs, if_true, he, if_pos]
      exact filter_self_idem _ _
    · have he' : envs.isEmpty = false := by simpa using he
      simp only [hs, if_true, he', Bool.false_eq_true, if_false]
      exact filter_comp_idem _ _ _
  · have hs' : (season != "" && season != SELECT_PLACEHOLDER) = false := by simpa using hs
    by_cases he : envs.isEmpty = true
    · simp [hs', he]
    · have he' : envs.isEmpty = false := by simpa using he
      simp only [hs', Bool.false_eq_true, if_false, he']
      exact filter_self_idem _ _

/-! ### The swap symmetry (claim C2). -/

theorem win_ne_loss : WIN ≠ LOSS := by decide

theorem first_ne_second : FIRST ≠ SECOND := by decide

theorem flipResult_beq_win (s : String) : (flipResult s == WIN) = (s == LOSS) := by
  unfold flipResult
  by_cases h1 : s = WIN
  · subst h1; decide
  · by_cases h2 : s = LOSS
    · subst h2; decide
    · simp [h1, h2]

theorem flipResult_beq_loss (s : String) : (flipResult s == LOSS) = (s == WIN) := by
  unfold flipResult
  by_cases h1 : s = WIN
  · subst h1; decide
  · by_cases h2 : s = LOSS
    · subst h2; decide
    · simp [h1, h2]

theorem totalAppearances_swap (df : List Row) (deck : String) :
    totalAppearances (df.map swapRow) deck none = totalAppearances df deck none := by
  rw [totalAppearances_eq_countP, totalAppearances_eq_countP, List.countP_map, List.countP_map]
  have h1 : ((fun r : Row => r.my_deck == deck && matchesType none r.my_deck_type) ∘ swapRow)
      = fun r : Row => r.opponent_deck == deck && matchesType none r.opponent_deck_type := by
    funext r; simp [swapRow, matchesType]
  have h2 : ((fun r : Row => r.opponent_deck == deck
      && matchesType none r.opponent_deck_type) ∘ swapRow)
      = fun r : Row => r.my_deck == deck && matchesType none r.my_deck_type := by
    funext r; simp [swapRow, matchesType]
  rw [h1, h2, Nat.add_comm]

theorem totalWins_swap (df : List Row) (deck : String) :
    totalWins (df.map swapRow) deck none = totalWins df deck none := by
  rw [totalWins_eq_countP, totalWins_eq_countP, List.countP_map, List.countP_map]
  have h1 : ((fun r : Row => r.my_deck == deck && matchesType none r.my_deck_type
      && r.result == WIN) ∘ swapRow)
      = fun r : Row => r.opponent_deck == deck && matchesType none r.opponent_deck_type
        && r.result == LOSS := by
    funext r; simp [swapRow, matchesType, flipResult_beq_win]
  have h2 : ((fun r : Row => r.opponent_deck == deck && matchesType none r.opponent_deck_type
      && r.result == LOSS) ∘ swapRow)
      = fun r : Row => r.my_deck == deck && matchesType none r.my_deck_type
        && r.result == WIN := by
    funext r; simp [swapRow, matchesType, flipResult_beq_loss]
  rw [h1, h2, Nat.add_comm]

/-- C2: transforming each row by swapping the `my_deck` fields with the
`opponent_deck` fields while flipping the result (`WIN` ↔ `LOSS`) and the
initiative (`FIRST` ↔ `SECOND`) leaves every archetype's computed overall
win rate unchanged. -/
theorem swap_symmetry_overall_win_rate (df : List Row) (deck : String) :
    overallWinRate (df.map swapRow) deck none = overallWinRate df deck none := by
  unfold overallWinRate
  rw [totalAppearances_swap, totalWins_swap]

/-! ### First/second split (claim C6). -/

theorem length_double_filter (p q : Row → Bool) (df : List Row) :
    ((df.filter p).filter q).length = df.countP fun r => p r && q r := by
  rw [length_filter_eq_countP, List.countP_filter]
  exact List.countP_congr fun r _ => by rw [Bool.and_comm]

theorem length_triple_filter (p q w : Row → Bool) (df : List Row) :
    (((df.filter p).filter q).filter w).length = df.countP fun r => p r && q r && w r := by
  rw [length_filter_eq_countP, List.countP_filter, List.countP_filter]
  exact List.countP_congr fun r _ => by
    cases hp : p r <;> cases hq : q r <;> cases hw : w r <;> simp [hp, hq, hw]

/-- C6: for every table and archetype, the "archetype went first" subset is
the union of `AsMine` rows with `first_second == FIRST` and `AsOpponent`
rows with `first_second == SECOND` (a disjoint union, expressed below as a
single disjunctive count); the first-turn win rate is absent exactly when
that subset is empty and otherwise equals the symmetric win count within
the subset divided by the subset size times 100; symmetrically for the
second-turn split with `FIRST` and `SECOND` exchanged. -/
theorem first_second_split (df : List Row) (deck : String) (dtype : Option String) :
    (winRateFirst df deck dtype =
      if df.countP (fun r =>
          (r.my_deck == deck && matchesType dtype r.my_deck_type && r.first_second == FIRST) ||
          (r.opponent_deck == deck && matchesType dtype r.opponent_deck_type
            && r.first_second == SECOND)) = 0 then none
      else some
        ((df.countP (fun r =>
            (r.my_deck == deck && matchesType dtype r.my_deck_type && r.first_second == FIRST
              && r.result == WIN) ||
            (r.opponent_deck == deck && matchesType dtype r.opponent_deck_type
              && r.first_second == SECOND && r.result == LOSS)) : ℚ) /
         (df.countP (fun r =>
            (r.my_deck == deck && matchesType dtype r.my_deck_type && r.first_second == FIRST) ||
            (r.opponent_deck == deck && matchesType dtype r.opponent_deck_type
              && r.first_second == SECOND)) : ℚ) * 100)) ∧
    (winRateSecond df deck dtype =
      if df.countP (fun r =>
          (r.my_deck == deck && matchesType dtype r.my_deck_type && r.first_second == SECOND) ||
          (r.opponent_deck == deck && matchesType dtype r.opponent_deck_type
            && r.first_second == FIRST)) = 0 then none
      else some
        ((df.countP (fun r =>
            (r.my_deck == deck && matchesType dtype r.my_deck_type && r.first_second == SECOND
              && r.result == WIN) ||
            (r.opponent_deck == deck && matchesType dtype r.opponent_deck_type
              && r.first_second == FIRST && r.result == LOSS)) : ℚ) /
         (df.countP (fun r =>
            (r.my_deck == deck && matchesType dtype r.my_deck_type && r.first_second == SECOND) ||
            (r.opponent_deck == deck && matchesType dtype r.opponent_deck_type
              && r.first_second == FIRST)) : ℚ) * 100)) := by
  have hdisj1 : ∀ r ∈ df, ¬((r.my_deck == deck && matchesType dtype r.my_deck_type
      && r.first_second == FIRST) = true ∧
      (r.opponent_deck == deck && matchesType dtype r.opponent_deck_type
      && r.first_second == SECOND) = true) := by
    rintro r _ ⟨h1, h2⟩
    simp only [Bool.and_eq_true, beq_iff_eq] at h1 h2
    exact first_ne_second (h1.2 ▸ h2.2)
  have hdisj2 : ∀ r ∈ df, ¬((r.my_deck == deck && matchesType dtype r.my_deck_type
      && r.first_second == SECOND) = true ∧
      (r.opponent_deck == deck && matchesType dtype r.opponent_deck_type
      && r.first_second == FIRST) = true) := by
    rintro r _ ⟨h1, h2⟩
    simp only [Bool.and_eq_true, beq_iff_eq] at h1 h2
    exact first_ne_second (h2.2 ▸ h1.2)
  have hdisj1w : ∀ r ∈ df, ¬((r.my_deck == deck && matchesType dtype r.my_deck_type
      && r.first_second == FIRST && r.result == WIN) = true ∧
      (r.opponent_deck == deck && matchesType dtype r.opponent_deck_type
      && r.first_second == SECOND && r.result == LOSS) = true) := by
    rintro r _ ⟨h1, h2⟩
    simp only [Bool.and_eq_true, beq_iff_eq] at h1 h2
    exact first_ne_second (h1.1.2 ▸ h2.1.2)
  have hdisj2w : ∀ r ∈ df, ¬((r.my_deck == deck && matchesType dtype r.my_deck_type
      && r.first_second == SECOND && r.result == WIN) = true ∧
      (r.opponent_deck == deck && matchesType dtype r.opponent_deck_type
      && r.first_second == FIRST && r.result == LOSS) = true) := by
    rintro r _ ⟨h1, h2⟩
    simp only [Bool.and_eq_true, beq_iff_eq] at h1 h2
    exact first_ne_second (h2.1.2 ▸ h1.1.2)
  simp only [countP_or_disjoint _ _ _ hdisj1, countP_or_disjoint _ _ _ hdisj2,
    countP_or_disjoint _ _ _ hdisj1w, countP_or_disjoint _ _ _ hdisj2w]
  constructor
  · simp only [winRateFirst, asMineGames, asOpponentGames]
    rw [length_triple_filter, length_triple_filter]
    simp only [length_double_filter]
    rcases Nat.eq_zero_or_pos
        (df.countP (fun r => r.my_deck == deck && matchesType dtype r.my_deck_type
          && r.first_second == FIRST) +
         df.countP (fun r => r.opponent_deck == deck && matchesType dtype r.opponent_deck_type
          && r.first_second == SECOND)) with h | h
    · simp [h]
    · rw [if_pos h, if_neg (Nat.pos_iff_ne_zero.mp h)]
  · simp only [winRateSecond, asMineGames, asOpponentGames]
    rw [length_triple_filter, length_triple_filter]
    simp only [length_double_filter]
    rcases Nat.eq_zero_or_pos
        (df.countP (fun r => r.my_deck == deck && matchesType dtype r.my_deck_type
          && r.first_second == SECOND) +
         df.countP (fun r => r.opponent_deck == deck && matchesType dtype r.opponent_deck_type
          && r.first_second == FIRST)) with h | h
    · simp [h]
    · rw [if_pos h, if_neg (Nat.pos_iff_ne_zero.mp h)]

/-! ### Matchup (pairwise) performance, type-agnostic layer
(`display_general_deck_performance` lines 298-319). -/

def gamesInvolving (df : List Row) (deck : String) : List Row :=
  df.filter fun r => r.my_deck == deck || r.opponent_deck == deck

/-- The opponent of a game from `deck`'s point of view
(lines 302-304: `my_deck == deck` is checked before `opponent_deck == deck`). -/
def opponentOfRow (deck : String) (r : Row) : Option String :=
  if r.my_deck == deck then some r.opponent_deck
  else if r.opponent_deck == deck then some r.my_deck
  else none

/-- The validity test of lines 305-306: truthy, not the deck itself, and not
blank or the text `nan` after stripping. -/
def validOpponentName (deck b : String) : Bool :=
  b != "" && b != deck && stripStr b != "" && lowerStr (stripStr b) != "nan"

def uniqueOpponentsFaced (df : List Row) (deck : String) : List String :=
  (((gamesInvolving df deck).filterMap (opponentOfRow deck)).filter
    (validOpponentName deck)).dedup

def matchupMyGames (df : List Row) (a b : String) : List Row :=
  (gamesInvolving df a).filter fun r => r.my_deck == a && r.opponent_deck == b

def matchupOppGames (df : List Row) (a b : String) : List Row :=
  (gamesInvolving df a).filter fun r => r.opponent_deck == a && r.my_deck == b

def matchupGames (df : List Row) (a b : String) : Nat :=
  (matchupMyGames df a b).length + (matchupOppGames df a b).length

def matchupWins (df : List Row) (a b : String) : Nat :=
  ((matchupMyGames df a b).filter fun r => r.result == WIN).length +
  ((matchupOppGames df a b).filter fun r => r.result == LOSS).length

def matchupWinRate (df : List Row) (a b : String) : ℚ :=
  if 0 < matchupGames df a b then
    (matchupWins df a b : ℚ) / (matchupGames df a b : ℚ) * 100
  else 0

/-- Lines 309-318: one win rate per faced opponent, collected only when the
pair has games (the guard of line 316). -/
def matchupWinRatesList (df : List Row) (deck : String) : List ℚ :=
  (uniqueOpponentsFaced df deck).filterMap fun b =>
    if 0 < matchupGames df deck b then some (matchupWinRate df deck b) else none

/-- Line 319: `pd.Series(...).mean()` of the collected rates, `None` when the
list is empty. -/
def avgMatchupWinRate (df : List Row) (deck : String) : Option ℚ :=
  if matchupWinRatesList df deck = [] then none
  else some ((matchupWinRatesList df deck).sum / ((matchupWinRatesList df deck).length : ℚ))

/-- Volume-weighted aggregate win rate over the faced opponents.  This
definition follows the spec's words ("not a re-weighted aggregate win
rate") and exists purely for comparison with `avgMatchupWinRate`; it is not
computed anywhere in the source. -/
def volumeWeightedAggregateRate (df : List Row) (deck : String) : Option ℚ :=
  if 0 < ((uniqueOpponentsFaced df deck).map (matchupGames df deck)).sum then
    some ((((uniqueOpponentsFaced df deck).map (matchupWins df deck)).sum : ℚ) /
      (((uniqueOpponentsFaced df deck).map (matchupGames df deck)).sum : ℚ) * 100)
  else none

/-! ### Concrete tables used by witnesses and counterexamples. -/

def mkRow (my opp res fs : String) : Row :=
  { season := "S", date := none, environment := "E", my_deck := my, my_deck_type := "t1",
    opponent_deck := opp, opponent_deck_type := "t1", first_second := fs, result := res,
    finish_turn := none, memo := "" }

/-- Three games of archetype `A`: a win and a loss against `B`, a win against
`C`. -/
def exampleTable : List Row :=
  [mkRow "A" "B" WIN FIRST, mkRow "A" "B" LOSS FIRST, mkRow "A" "C" WIN FIRST]

/-! ### Counting lemmas for the matchup layer. -/

theorem games_pos_of_mem_unique (df : List Row) (deck b : String)
    (hb : b ∈ uniqueOpponentsFaced df deck) : 0 < matchupGames df deck b := by
  unfold uniqueOpponentsFaced at hb
  rw [List.mem_dedup, List.mem_filter] at hb
  obtain ⟨hmem, _hvalid⟩ := hb
  rw [List.mem_filterMap] at hmem
  obtain ⟨r, hr, hsome⟩ := hmem
  unfold opponentOfRow at hsome
  by_cases h1 : r.my_deck = deck
  · simp only [h1, beq_self_eq_true, if_true, Option.some.injEq] at hsome
    have hrm : r ∈ matchupMyGames df deck b := by
      unfold matchupMyGames
      rw [List.mem_filter]
      exact ⟨hr, by simp [h1, hsome]⟩
    unfold matchupGames
    exact Nat.lt_of_lt_of_le (List.length_pos_of_mem hrm) (Nat.le_add_right _ _)
  · by_cases h2 : r.opponent_deck = deck
    · simp [h1, h2] at hsome
      have hrm : r ∈ matchupOppGames df deck b := by
        unfold matchupOppGames
        rw [List.mem_filter]
        exact ⟨hr, by simp [h2, hsome]⟩
      unfold matchupGames
      exact Nat.lt_of_lt_of_le (List.length_pos_of_mem hrm) (Nat.le_add_left _ _)
    · simp [h1, h2] at hsome

theorem filterMap_if_pos {α β : Type} (g : α → β) (c : α → Prop) [DecidablePred c]
    (l : List α) (h : ∀ a ∈ l, c a) :
    (l.filterMap fun a => if c a then some (g a) else none) = l.map g := by
  induction l with
  | nil => rfl
  | cons x xs ih =>
    have hx := h x (List.mem_cons_self x xs)
    simp [List.filterMap_cons, hx, ih fun a ha => h a (List.mem_cons_of_mem x ha)]

theorem matchupWinRatesList_eq_map (df : List Row) (deck : String) :
    matchupWinRatesList df deck =
      (uniqueOpponentsFaced df deck).map (matchupWinRate df deck) := by
  unfold matchupWinRatesList
  exact filterMap_if_pos _ _ _ fun b hb => games_pos_of_mem_unique df deck b hb

/-- C3: the average matchup win rate of an archetype equals the unweighted
arithmetic mean, over its distinct faced opponent archetypes, of the
per-opponent type-agnostic pairwise win rates; it is absent when there are
no valid opponents; and on a concrete three-game table it differs from the
volume-weighted aggregate win rate, so it is not that aggregate. -/
theorem avg_matchup_is_unweighted_mean :
    (∀ (df : List Row) (deck : String),
      avgMatchupWinRate df deck =
        if uniqueOpponentsFaced df deck = [] then none
        else some ((((uniqueOpponentsFaced df deck).map (matchupWinRate df deck)).sum) /
          ((uniqueOpponentsFaced df deck).length : ℚ))) ∧
    avgMatchupWinRate exampleTable "A" = some 75 ∧
    volumeWeightedAggregateRate exampleTable "A" = some (200 / 3) ∧
    (75 : ℚ) ≠ 200 / 3 := by
  have hu : uniqueOpponentsFaced exampleTable "A" = ["B", "C"] := by decide
  have hgB : matchupGames exampleTable "A" "B" = 2 := by decide
  have hwB : matchupWins exampleTable "A" "B" = 1 := by decide
  have hgC : matchupGames exampleTable "A" "C" = 1 := by decide
  have hwC : matchupWins exampleTable "A" "C" = 1 := by decide
  have hrB : matchupWinRate exampleTable "A" "B" = 50 := by
    rw [matchupWinRate, hgB, hwB]; norm_num
  have hrC : matchupWinRate exampleTable "A" "C" = 100 := by
    rw [matchupWinRate, hgC, hwC]; norm_num
  refine ⟨?_, ?_, ?_, by norm_num⟩
  · intro df deck
    rw [avgMatchupWinRate, matchupWinRatesList_eq_map, List.length_map]
    by_cases h : uniqueOpponentsFaced df deck = []
    · simp [h]
    · rw [if_neg (by simpa using h), if_neg h]
  · rw [avgMatchupWinRate, matchupWinRatesList_eq_map, hu]
    simp [hrB, hrC]
    norm_num
  · rw [volumeWeightedAggregateRate, hu]
    simp [hgB, hgC, hwB, hwC]
    norm_num

/-! ### The zero-sum property of pairwise win rates (claim C4). -/

theorem matchupMyGames_eq (df : List Row) (a b : String) :
    matchupMyGames df a b = df.filter fun r => r.my_deck == a && r.opponent_deck == b := by
  unfold matchupMyGames gamesInvolving
  rw [List.filter_filter]
  exact List.filter_congr fun r _ => by
    cases h1 : (r.my_deck == a) <;> cases h2 : (r.opponent_deck == b) <;> simp [h1, h2]

theorem matchupOppGames_eq (df : List Row) (a b : String) :
    matchupOppGames df a b = df.filter fun r => r.opponent_deck == a && r.my_deck == b := by
  unfold matchupOppGames gamesInvolving
  rw [List.filter_filter]
  exact List.filter_congr fun r _ => by
    cases h1 : (r.opponent_deck == a) <;> cases h2 : (r.my_deck == b) <;> simp [h1, h2]

theorem matchupGames_countP (df : List Row) (a b : String) :
    matchupGames df a b =
      df.countP (fun r => r.my_deck == a && r.opponent_deck == b) +
      df.countP (fun r => r.opponent_deck == a && r.my_deck == b) := by
  unfold matchupGames
  rw [matchupMyGames_eq, matchupOppGames_eq, length_filter_eq_countP, length_filter_eq_countP]

theorem matchupWins_countP (df : List Row) (a b : String) :
    matchupWins df a b =
      df.countP (fun r => (r.my_deck == a && r.opponent_deck == b) && r.result == WIN) +
      df.countP (fun r => (r.opponent_deck == a && r.my_deck == b) && r.result == LOSS) := by
  unfold matchupWins
  rw [matchupMyGames_eq, matchupOppGames_eq, length_double_filter, length_double_filter]

theorem matchupGames_symm (df : List Row) (a b : String) :
    matchupGames df a b = matchupGames df b a := by
  rw [matchupGames_countP, matchupGames_countP]
  have e1 : df.countP (fun r => r.my_deck == a && r.opponent_deck == b) =
      df.countP (fun r => r.opponent_deck == b && r.my_deck == a) :=
    List.countP_congr fun r _ => by rw [Bool.and_comm]
  have e2 : df.countP (fun r => r.opponent_deck == a && r.my_deck == b) =
      df.countP (fun r => r.my_deck == b && r.opponent_deck == a) :=
    List.countP_congr fun r _ => by rw [Bool.and_comm]
  rw [e1, e2, Nat.add_comm]

theorem countP_result_split (df : List Row) (c : Row → Bool)
    (hwf : ∀ r ∈ df, r.result = WIN ∨ r.result = LOSS) :
    df.countP (fun r => c r && r.result == WIN) +
      df.countP (fun r => c r && r.result == LOSS) = df.countP c := by
  induction df with
  | nil => rfl
  | cons x xs ih =>
    have hx := hwf x (List.mem_cons_self x xs)
    have ih' := ih fun r hr => hwf r (List.mem_cons_of_mem x hr)
    rcases hx with h | h <;> cases hc : c x <;>
      simp [List.countP_cons, h, hc, win_ne_loss, Ne.symm win_ne_loss] <;> omega

theorem matchupWins_add (df : List Row) (a b : String)
    (hwf : ∀ r ∈ df, r.result = WIN ∨ r.result = LOSS) :
    matchupWins df a b + matchupWins df b a = matchupGames df a b := by
  rw [matchupWins_countP, matchupWins_countP, matchupGames_countP]
  have e1 : df.countP (fun r => (r.opponent_deck == b && r.my_deck == a) && r.result == LOSS) =
      df.countP (fun r => (r.my_deck == a && r.opponent_deck == b) && r.result == LOSS) :=
    List.countP_congr fun r _ => by rw [Bool.and_comm (r.opponent_deck == b)]
  have e2 : df.countP (fun r => (r.my_deck == b && r.opponent_deck == a) && r.result == WIN) =
      df.countP (fun r => (r.opponent_deck == a && r.my_deck == b) && r.result == WIN) :=
    List.countP_congr fun r _ => by rw [Bool.and_comm (r.my_deck == b)]
  rw [e1, e2]
  have s1 : df.countP (fun r => (r.my_deck == a && r.opponent_deck == b) && r.result == WIN) +
      df.countP (fun r => (r.my_deck == a && r.opponent_deck == b) && r.result == LOSS) =
      df.countP (fun r => r.my_deck == a && r.opponent_deck == b) :=
    countP_result_split df _ hwf
  have s2 : df.countP (fun r => (r.opponent_deck == a && r.my_deck == b) && r.result == WIN) +
      df.countP (fun r => (r.opponent_deck == a && r.my_deck == b) && r.result == LOSS) =
      df.countP (fun r => r.opponent_deck == a && r.my_deck == b) :=
    countP_result_split df _ hwf
  omega

/-- C4: for a table of well-formed results (§3 invariant: `result` is one of
the two enum values) and distinct archetypes `a` and `b` with games against
each other, the type-agnostic matchup win rate of `a` versus `b` equals
100 minus the type-agnostic matchup win rate of `b` versus `a`. -/
theorem matchup_zero_sum (df : List Row) (a b : String)
    (hwf : ∀ r ∈ df, r.result = WIN ∨ r.result = LOSS)
    (_hab : a ≠ b)
    (h1 : 0 < matchupGames df a b) (h2 : 0 < matchupGames df b a) :
    matchupWinRate df a b = 100 - matchupWinRate df b a := by
  have hg : matchupGames df b a = matchupGames df a b := (matchupGames_symm df a b).symm
  have hsum := matchupWins_add df a b hwf
  unfold matchupWinRate
  rw [if_pos h1, if_pos h2, hg]
  have hgQ : (matchupGames df a b : ℚ) ≠ 0 :=
    Nat.cast_ne_zero.mpr (Nat.pos_iff_ne_zero.mp h1)
  have hcast : (matchupWins df a b : ℚ) + (matchupWins df b a : ℚ) =
      (matchupGames df a b : ℚ) := by exact_mod_cast hsum
  field_simp
  linarith [hcast]

/-- Witness for C4 on the concrete three-game table: `A` versus `B` is 50%,
`B` versus `A` is 50%, and the zero-sum identity holds. -/
theorem matchup_zero_sum_witness :
    matchupWinRate exampleTable "A" "B" = 100 - matchupWinRate exampleTable "B" "A" :=
  matchup_zero_sum exampleTable "A" "B" (by decide) (by decide) (by decide) (by decide)

/-! ### Matchup enumeration of the focus view
(`show_analysis_section` lines 438-447). -/

/-- The validity test of line 447: the opponent name is truthy and is not the
text `nan` (case-insensitively).  Note there is no self-pair test here,
unlike line 305 of the general view. -/
def validPairName (b : String) : Bool := b != "" && lowerStr b != "nan"

/-- Python tuple comparison on (name, type) pairs of strings. -/
def pairLe (p q : String × String) : Bool :=
  if p.1 == q.1 then strLe p.2 q.2 else strLe p.1 q.1

/-- Lines 439-447: distinct (opponent archetype, opponent type) pairs seen
from both perspectives, filtered and sorted. -/
def focusOpponentPairs (df : List Row) (focus : String) (ftype : Option String) :
    List (String × String) :=
  ((((asMineGames df focus ftype).map fun r => (r.opponent_deck, r.opponent_deck_type)) ++
    ((asOpponentGames df focus ftype).map fun r => (r.my_deck, r.my_deck_type))).dedup.filter
      fun p => validPairName p.1).mergeSort pairLe

/-- C5 counterexample: on a table holding one mirror match of `X` against
itself, the focus-view matchup enumeration for focus `X` contains the
self-pair `("X", "t1")` — the claimed self-pair exclusion does not happen
in `show_analysis_section`. -/
theorem focus_enumeration_includes_self_pair :
    ("X", "t1") ∈ focusOpponentPairs [mkRow "X" "X" WIN FIRST] "X" none := by
  unfold focusOpponentPairs
  rw [List.mem_mergeSort]
  decide

/-- C5 amended: the focus-view matchup enumeration collects the (opponent,
opponent type) pairs from both perspectives and excludes exactly the pairs
whose opponent name is absent (empty or the text `nan` case-insensitively);
self-pairs are not excluded. -/
theorem focus_opponent_pairs_membership (df : List Row) (focus : String)
    (ftype : Option String) (p : String × String) :
    p ∈ focusOpponentPairs df focus ftype ↔
      ((∃ r ∈ asMineGames df focus ftype, (r.opponent_deck, r.opponent_deck_type) = p) ∨
       (∃ r ∈ asOpponentGames df focus ftype, (r.my_deck, r.my_deck_type) = p)) ∧
      (p.1 ≠ "" ∧ lowerStr p.1 ≠ "nan") := by
  unfold focusOpponentPairs
  rw [List.mem_mergeSort, List.mem_filter, List.mem_dedup, List.mem_append]
  simp [validPairName]

/-! ### Normalization of `finish_turn` (claim C7, `load_data` line 117). -/

theorem isPyWS_eq_false_of_isDigit (c : Char) (h : c.isDigit = true) : isPyWS c = false := by
  have h1 : c ≠ ' ' := fun e => by rw [e] at h; exact absurd h (by decide)
  have h2 : c ≠ '\t' := fun e => by rw [e] at h; exact absurd h (by decide)
  have h3 : c ≠ '\n' := fun e => by rw [e] at h; exact absurd h (by decide)
  have h4 : c ≠ '\r' := fun e => by rw [e] at h; exact absurd h (by decide)
  simp [isPyWS, h1, h2, h3, h4]

theorem stripStr_minus_digits (l : List Char) (hne : l ≠ []) (hd : l.all Char.isDigit = true) :
    stripStr ⟨'-' :: l⟩ = ⟨'-' :: l⟩ := by
  have h1 : List.dropWhile isPyWS ('-' :: l) = '-' :: l := by
    rw [List.dropWhile_cons, if_neg (by decide)]
  have h2 : List.dropWhile isPyWS (('-' :: l).reverse) = ('-' :: l).reverse := by
    rcases hrev : l.reverse with _ | ⟨c, t⟩
    · exact absurd (List.reverse_eq_nil_iff.mp hrev) hne
    · have hr : ('-' :: l).reverse = c :: (t ++ ['-']) := by
        rw [List.reverse_cons, hrev]
        rfl
      have hcmem : c ∈ l := by
        rw [← List.mem_reverse, hrev]
        exact List.mem_cons_self c t
      have hcd : c.isDigit = true := List.all_eq_true.mp hd c hcmem
      rw [hr, List.dropWhile_cons,
        if_neg (by rw [isPyWS_eq_false_of_isDigit c hcd]; simp)]
  show (⟨((('-' :: l).dropWhile isPyWS).reverse.dropWhile isPyWS).reverse⟩ : String) = ⟨'-' :: l⟩
  rw [h1, h2, List.reverse_reverse]

theorem normalizeFinishTurn_neg_digits (l : List Char) (hne : l ≠ [])
    (hd : l.all Char.isDigit = true) :
    normalizeFinishTurn ⟨'-' :: l⟩ = Except.ok (some (-(digitsToNat l : Int))) := by
  unfold normalizeFinishTurn
  rw [stripStr_minus_digits l hne hd]
  simp [splitSign, List.takeWhile_eq_self_iff.mpr (List.all_eq_true.mp hd),
    List.dropWhile_eq_nil_iff.mpr (List.all_eq_true.mp hd), hne]

/-- C7 counterexample: a negative raw `finish_turn` does not become absent —
`"-3"` normalizes to the present value `-3`, because
`pd.to_numeric(..., errors='coerce')` only coerces unparseable values; and
the non-integral `"3.5"` makes the `Int64` cast raise instead of degrading
to absent, so normalization is not raise-free either. -/
theorem finish_turn_negative_not_absent :
    normalizeFinishTurn "-3" = Except.ok (some (-3)) ∧
    normalizeFinishTurn "-3" ≠ Except.ok none ∧
    normalizeFinishTurn "3.5" = Except.error () := by
  refine ⟨rfl, ?_, rfl⟩
  rw [show normalizeFinishTurn "-3" = Except.ok (some (-3)) from rfl]
  simp

/-- C7 amended: each raw `finish_turn` cell either becomes absent, parses to
an integer, or makes the `Int64` cast raise; an unparseable value becomes
the absent value; a minus sign followed by digits always parses to that
negative integer (kept, not made absent); signed and whitespace-padded
integer literals and integral floats are kept too; and when any cell makes
the cast raise, `load_data`'s blanket `except` replaces the whole table
with an empty one instead of degrading the field to absent. -/
theorem finish_turn_parse_amended :
    (∀ s : String, normalizeFinishTurn s = Except.ok none ∨
       (∃ k : Int, normalizeFinishTurn s = Except.ok (some k)) ∨
       normalizeFinishTurn s = Except.error ()) ∧
    (∀ l : List Char, l ≠ [] → l.all Char.isDigit = true →
       normalizeFinishTurn ⟨'-' :: l⟩ = Except.ok (some (-(digitsToNat l : Int)))) ∧
    normalizeFinishTurn "abc" = Except.ok none ∧
    normalizeFinishTurn "" = Except.ok none ∧
    normalizeFinishTurn "+7" = Except.ok (some 7) ∧
    normalizeFinishTurn " 7" = Except.ok (some 7) ∧
    normalizeFinishTurn "-7.0" = Except.ok (some (-7)) ∧
    normalizeTableFinishTurn ["4", "-3", "abc"] = [some 4, some (-3), none] ∧
    normalizeTableFinishTurn ["4", "3.5"] = [] := by
  refine ⟨?_, normalizeFinishTurn_neg_digits, rfl, rfl, rfl, rfl, rfl, rfl, rfl⟩
  intro s
  cases h : normalizeFinishTurn s with
  | error e =>
    cases e
    exact Or.inr (Or.inr rfl)
  | ok v =>
    cases v with
    | none => exact Or.inl rfl
    | some k => exact Or.inr (Or.inl ⟨k, rfl⟩)

/-- Witness for the amended C7: the negative-digits clause of
`finish_turn_parse_amended` applied at the concrete digit list `['4','2']`,
with its hypotheses discharged there. -/
theorem finish_turn_parse_amended_witness :
    (['4', '2'] : List Char) ≠ [] ∧ (['4', '2'] : List Char).all Char.isDigit = true ∧
    normalizeFinishTurn ⟨'-' :: ['4', '2']⟩ = Except.ok (some (-(digitsToNat ['4', '2'] : Int))) :=
  ⟨by decide, by decide, finish_turn_parse_amended.2.1 ['4', '2'] (by decide) (by decide)⟩

/-! ### Rows with a malformed result (claim C10). -/

theorem totalWins_le_totalAppearances (df : List Row) (deck : String) (dtype : Option String) :
    totalWins df deck dtype ≤ totalAppearances df deck dtype :=
  Nat.add_le_add (List.length_filter_le _ _) (List.length_filter_le _ _)

/-- C10 amended: appending a row whose result is neither `WIN` nor `LOSS`
adds one appearance but no win — hence one loss — for each of the two
(distinct) archetypes of the row, and therefore never increases and, when
the archetype already has at least one win, strictly lowers its overall
win rate (with zero prior wins the rate stays 0.0). -/
theorem malformed_result_is_loss_for_both (df : List Row) (r : Row) (deck : String)
    (hres1 : r.result ≠ WIN) (hres2 : r.result ≠ LOSS)
    (hdistinct : r.my_deck ≠ r.opponent_deck)
    (hdeck : deck = r.my_deck ∨ deck = r.opponent_deck) :
    totalAppearances (df ++ [r]) deck none = totalAppearances df deck none + 1 ∧
    totalWins (df ++ [r]) deck none = totalWins df deck none ∧
    totalLosses (df ++ [r]) deck none = totalLosses df deck none + 1 ∧
    overallWinRate (df ++ [r]) deck none ≤ overallWinRate df deck none ∧
    (0 < totalWins df deck none →
      overallWinRate (df ++ [r]) deck none < overallWinRate df deck none) := by
  have happ : totalAppearances (df ++ [r]) deck none = totalAppearances df deck none + 1 := by
    rw [totalAppearances_eq_countP, totalAppearances_eq_countP,
      List.countP_append, List.countP_append]
    rcases hdeck with h | h <;> subst h
    · have hne : (r.opponent_deck == r.my_deck) = false := by
        simp [Ne.symm hdistinct]
      simp [List.countP_cons, matchesType, hne]
      omega
    · have hne : (r.my_deck == r.opponent_deck) = false := by
        simp [hdistinct]
      simp [List.countP_cons, matchesType, hne]
      omega
  have hwins : totalWins (df ++ [r]) deck none = totalWins df deck none := by
    rw [totalWins_eq_countP, totalWins_eq_countP, List.countP_append, List.countP_append]
    simp [List.countP_cons, hres1, hres2]
  have hle := totalWins_le_totalAppearances df deck none
  have hlosses : totalLosses (df ++ [r]) deck none = totalLosses df deck none + 1 := by
    unfold totalLosses
    rw [happ, hwins]
    omega
  refine ⟨happ, hwins, hlosses, ?_, ?_⟩
  · rw [overallWinRate, overallWinRate, happ, hwins]
    rcases Nat.eq_zero_or_pos (totalAppearances df deck none) with h0 | hpos
    · have hw0 : totalWins df deck none = 0 := by omega
      rw [h0, hw0]
      norm_num
    · rw [if_pos (by omega), if_pos hpos]
      apply mul_le_mul_of_nonneg_right _ (by norm_num : (0:ℚ) ≤ 100)
      apply div_le_div_of_nonneg_left (Nat.cast_nonneg _) (by exact_mod_cast hpos)
      push_cast
      linarith
  · intro hw
    have hpos : 0 < totalAppearances df deck none := by omega
    rw [overallWinRate, overallWinRate, happ, hwins, if_pos (by omega), if_pos hpos]
    apply mul_lt_mul_of_pos_right _ (by norm_num : (0:ℚ) < 100)
    apply div_lt_div_of_pos_left (by exact_mod_cast hw) (by exact_mod_cast hpos)
    push_cast
    linarith

/-- Witness for the amended C10 on a concrete table: one prior win of `X`
against `Y`, then a drawn (malformed-result) game of `X` against `Y`. -/
theorem malformed_result_is_loss_witness :
    totalAppearances ([mkRow "X" "Y" WIN FIRST] ++ [mkRow "X" "Y" "引き分け" FIRST]) "X" none =
      totalAppearances [mkRow "X" "Y" WIN FIRST] "X" none + 1 ∧
    totalWins ([mkRow "X" "Y" WIN FIRST] ++ [mkRow "X" "Y" "引き分け" FIRST]) "X" none =
      totalWins [mkRow "X" "Y" WIN FIRST] "X" none ∧
    totalLosses ([mkRow "X" "Y" WIN FIRST] ++ [mkRow "X" "Y" "引き分け" FIRST]) "X" none =
      totalLosses [mkRow "X" "Y" WIN FIRST] "X" none + 1 ∧
    overallWinRate ([mkRow "X" "Y" WIN FIRST] ++ [mkRow "X" "Y" "引き分け" FIRST]) "X" none ≤
      overallWinRate [mkRow "X" "Y" WIN FIRST] "X" none ∧
    (0 < totalWins [mkRow "X" "Y" WIN FIRST] "X" none →
      overallWinRate ([mkRow "X" "Y" WIN FIRST] ++ [mkRow "X" "Y" "引き分け" FIRST]) "X" none <
        overallWinRate [mkRow "X" "Y" WIN FIRST] "X" none) :=
  malformed_result_is_loss_for_both [mkRow "X" "Y" WIN FIRST]
    (mkRow "X" "Y" "引き分け" FIRST) "X" (by decide) (by decide) (by decide) (Or.inl rfl)

/-- C10 counterexample: the claim's final clause ("lowers both of their
overall win rates") fails for an archetype with no wins: appending the
drawn game of `X` against `Y` to the empty table leaves `X`'s overall win
rate at 0.0 instead of lowering it. -/
theorem malformed_result_not_always_lowering :
    overallWinRate ([] ++ [mkRow "X" "Y" "引き分け" FIRST]) "X" none =
      overallWinRate ([] : List Row) "X" none ∧
    (mkRow "X" "Y" "引き分け" FIRST).result ≠ WIN ∧
    (mkRow "X" "Y" "引き分け" FIRST).result ≠ LOSS := by
  refine ⟨?_, by decide, by decide⟩
  have h1 : totalAppearances ([] ++ [mkRow "X" "Y" "引き分け" FIRST]) "X" none = 1 := by decide
  have h2 : totalWins ([] ++ [mkRow "X" "Y" "引き分け" FIRST]) "X" none = 0 := by decide
  have h3 : totalAppearances ([] : List Row) "X" none = 0 := by decide
  rw [overallWinRate, overallWinRate, h1, h2, h3]
  norm_num

/-! ### The combined matchup table and its sort order (claim C8,
`show_analysis_section` lines 448-533). -/

/-- Games of the focus deck against one specific (opponent, type) pair
(lines 453-467). -/
def pairGames (df : List Row) (focus : String) (ftype : Option String)
    (p : String × String) : Nat :=
  ((asMineGames df focus ftype).filter fun r =>
    r.opponent_deck == p.1 && r.opponent_deck_type == p.2).length +
  ((asOpponentGames df focus ftype).filter fun r =>
    r.my_deck == p.1 && r.my_deck_type == p.2).length

/-- Games of the focus deck against one opponent archetype over all its
types (lines 497-499). -/
def aggGames (df : List Row) (focus : String) (ftype : Option String) (b : String) : Nat :=
  ((asMineGames df focus ftype).filter fun r => r.opponent_deck == b).length +
  ((asOpponentGames df focus ftype).filter fun r => r.my_deck == b).length

/-- Keys of the type-specific layer (rows of `matchup_data`, guarded by
`games_played_count > 0` at line 479). -/
def specificLayerKeys (df : List Row) (focus : String) (ftype : Option String) :
    List (String × String) :=
  (focusOpponentPairs df focus ftype).filter fun p => 0 < pairGames df focus ftype p

/-- Keys of the ALL-TYPES layer: the distinct opponent names of the specific
layer in order of first occurrence (`unique()`), guarded by
`total_games_vs_opp_deck_agg > 0` at line 521. -/
def aggLayerKeys (df : List Row) (focus : String) (ftype : Option String) :
    List (String × String) :=
  (((specificLayerKeys df focus ftype).map Prod.fst).dedup).filterMap fun b =>
    if 0 < aggGames df focus ftype b then some (b, ALL_TYPES_PLACEHOLDER) else none

/-- The `__sort_type` tie-break key of line 532. -/
def sortTypeKey (t : String) : String :=
  if t == ALL_TYPES_PLACEHOLDER then "0_AllTypes" else "1_" ++ t

/-- The pandas sort of line 533: by opponent archetype, then by the
tie-break key, both compared as Python strings. -/
def matchupSortLe (p q : String × String) : Bool :=
  if p.1 == q.1 then strLe (sortTypeKey p.2) (sortTypeKey q.2) else strLe p.1 q.1

/-- The union of both layers, sorted (lines 529-533). -/
def combinedMatchupKeys (df : List Row) (focus : String) (ftype : Option String) :
    List (String × String) :=
  (specificLayerKeys df focus ftype ++ aggLayerKeys df focus ftype).mergeSort matchupSortLe

/-! ### The boolean comparator agrees with the lexicographic string order. -/

theorem charListLe_iff : ∀ xs ys : List Char,
    charListLe xs ys = true ↔ ¬ List.Lex (· < ·) ys xs
  | [], ys => by simp [charListLe]
  | x :: xs, [] => by
    rw [show charListLe (x :: xs) [] = false from rfl]
    exact ⟨fun h => absurd h (by simp), fun h => absurd List.Lex.nil h⟩
  | c :: cs, d :: ds => by
    have ih := charListLe_iff cs ds
    rw [show charListLe (c :: cs) (d :: ds) =
      (if c.toNat < d.toNat then true
       else if d.toNat < c.toNat then false else charListLe cs ds) from rfl]
    by_cases h1 : c.toNat < d.toNat
    · rw [if_pos h1]
      refine ⟨fun _ hlex => ?_, fun _ => rfl⟩
      cases hlex with
      | cons h => exact Nat.lt_irrefl _ h1
      | rel h =>
        have hh : d.toNat < c.toNat := h
        omega
    · rw [if_neg h1]
      by_cases h2 : d.toNat < c.toNat
      · rw [if_pos h2]
        exact ⟨fun h => absurd h (by simp),
          fun hn => absurd (List.Lex.rel (show d < c from h2)) hn⟩
      · rw [if_neg h2]
        have hdc : d = c := by
          rcases lt_trichotomy c d with h | h | h
          · exact absurd (show c.toNat < d.toNat from h) h1
          · exact h.symm
          · exact absurd (show d.toNat < c.toNat from h) h2
        subst hdc
        rw [ih, List.Lex.cons_iff]

theorem strLe_iff (s t : String) : strLe s t = true ↔ s ≤ t := by
  rw [strLe, charListLe_iff, String.le_iff_toList_le, ← not_lt]
  exact Iff.rfl

theorem zero_key_lt_append_one (t : String) : ("0_AllTypes" : String) < "1_" ++ t := by
  rw [String.lt_iff_toList_lt]
  have h2 : ("1_" ++ t).toList = '1' :: '_' :: t.toList := by
    show ("1_" ++ t).data = '1' :: '_' :: t.data
    rw [String.data_append]
    exact rfl
  rw [h2]
  exact List.Lex.rel (by decide)

theorem append_one_le_iff (t u : String) : ("1_" ++ t ≤ "1_" ++ u) ↔ t ≤ u := by
  rw [String.le_iff_toList_le, String.le_iff_toList_le]
  have h2 : ∀ v : String, ("1_" ++ v).toList = '1' :: '_' :: v.toList := fun v => by
    show ("1_" ++ v).data = '1' :: '_' :: v.data
    rw [String.data_append]
    exact rfl
  rw [h2, h2, ← not_lt, ← not_lt]
  constructor
  · intro h hlt
    exact h (List.Lex.cons (List.Lex.cons hlt))
  · intro h hlt
    have h' : List.Lex (· < ·) ('1' :: '_' :: u.toList) ('1' :: '_' :: t.toList) := hlt
    rw [List.Lex.cons_iff, List.Lex.cons_iff] at h'
    exact h h'

theorem matchupSortLe_trans : ∀ p q s : String × String,
    matchupSortLe p q = true → matchupSortLe q s = true → matchupSortLe p s = true := by
  intro p q s hpq hqs
  unfold matchupSortLe at hpq hqs ⊢
  by_cases h1 : p.1 = q.1 <;> by_cases h2 : q.1 = s.1
  · rw [if_pos (by simp [h1])] at hpq
    rw [if_pos (by simp [h2])] at hqs
    rw [if_pos (by simp [h1.trans h2])]
    exact (strLe_iff _ _).mpr (le_trans ((strLe_iff _ _).mp hpq) ((strLe_iff _ _).mp hqs))
  · rw [if_neg (by simp [h2])] at hqs
    have h3 : p.1 ≠ s.1 := fun e => h2 (h1.symm.trans e)
    rw [if_neg (by simp [h3]), h1]
    exact hqs
  · rw [if_neg (by simp [h1])] at hpq
    have h3 : p.1 ≠ s.1 := fun e => h1 (e.trans h2.symm)
    rw [if_neg (by simp [h3]), ← h2]
    exact hpq
  · rw [if_neg (by simp [h1])] at hpq
    rw [if_neg (by simp [h2])] at hqs
    have hlt : p.1 < s.1 :=
      lt_trans (lt_of_le_of_ne ((strLe_iff _ _).mp hpq) h1)
        (lt_of_le_of_ne ((strLe_iff _ _).mp hqs) h2)
    rw [if_neg (by simp [ne_of_lt hlt])]
    exact (strLe_iff _ _).mpr (le_of_lt hlt)

theorem matchupSortLe_total : ∀ p q : String × String,
    (matchupSortLe p q || matchupSortLe q p) = true := by
  intro p q
  unfold matchupSortLe
  by_cases h : p.1 = q.1
  · rw [if_pos (by simp [h]), if_pos (by simp [h.symm])]
    rcases le_total (sortTypeKey p.2) (sortTypeKey q.2) with hle | hle
    · rw [(strLe_iff _ _).mpr hle]
      simp
    · rw [(strLe_iff _ _).mpr hle]
      simp
  · rw [if_neg (by simp [h]), if_neg (by simp [Ne.symm h])]
    rcases le_total p.1 q.1 with hle | hle
    · rw [(strLe_iff _ _).mpr hle]
      simp
    · rw [(strLe_iff _ _).mpr hle]
      simp

theorem matchupSortLe_implies (p q : String × String) (h : matchupSortLe p q = true) :
    p.1 < q.1 ∨ (p.1 = q.1 ∧ (q.2 = ALL_TYPES_PLACEHOLDER → p.2 = ALL_TYPES_PLACEHOLDER) ∧
      (p.2 ≠ ALL_TYPES_PLACEHOLDER → q.2 ≠ ALL_TYPES_PLACEHOLDER → p.2 ≤ q.2)) := by
  unfold matchupSortLe at h
  by_cases he : p.1 = q.1
  · right
    rw [if_pos (by simp [he])] at h
    have hk := (strLe_iff _ _).mp h
    refine ⟨he, ?_, ?_⟩
    · intro hq
      by_contra hp
      unfold sortTypeKey at hk
      rw [if_neg (by simp [hp]), if_pos (by simp [hq])] at hk
      exact absurd hk (not_le.mpr (zero_key_lt_append_one p.2))
    · intro hp hq
      unfold sortTypeKey at hk
      rw [if_neg (by simp [hp]), if_neg (by simp [hq])] at hk
      exact (append_one_le_iff _ _).mp hk
  · left
    rw [if_neg (by simp [he])] at h
    exact lt_of_le_of_ne ((strLe_iff _ _).mp h) he

/-- C8: the combined matchup result set — the union of the type-specific
layer and the ALL-TYPES layer — is sorted by opponent archetype, and inside
each archetype group any ALL-TYPES row comes before every row with another
type label, while the other type labels appear in lexicographic order. -/
theorem combined_matchup_keys_sorted (df : List Row) (focus : String) (ftype : Option String) :
    List.Pairwise (fun p q : String × String =>
      p.1 < q.1 ∨ (p.1 = q.1 ∧ (q.2 = ALL_TYPES_PLACEHOLDER → p.2 = ALL_TYPES_PLACEHOLDER) ∧
        (p.2 ≠ ALL_TYPES_PLACEHOLDER → q.2 ≠ ALL_TYPES_PLACEHOLDER → p.2 ≤ q.2)))
      (combinedMatchupKeys df focus ftype) := by
  unfold combinedMatchupKeys
  exact List.Pairwise.imp (fun h => matchupSortLe_implies _ _ h)
    (List.sorted_mergeSort matchupSortLe_trans matchupSortLe_total _)

end WarRecord
